import Mathlib

/-!
Verification of the pyopenms_viz data-preparation and multi-backend plotting
layer against its natural-language specification.

The embedding follows `pyopenms_viz/MSExperimentPlotter.py` and
`pyopenms_viz/plotting/_plotly/core.py`.  Machine floats are modelled by exact
rationals (ℚ); pandas DataFrames by lists of row structures.  Display-string
formatting (decimal rounding inside f-strings) is not load-bearing for any
claim and is represented by the underlying value triples.
-/

attribute [local semireducible] Rat.add Rat.mul Rat.inv Rat.sub

namespace MSPlot

/-- A row of the peak-map observation table: columns `mz`, `RT`, `inty`
(see the column accesses in `MSExperimentPlotter._prepare_data`). -/
structure Row where
  mz : ℚ
  rt : ℚ
  inty : ℚ
deriving DecidableEq, Repr

/-- The `bin_peaks` option has Python type `Union[Literal["auto"], bool]`. -/
inductive BinPeaks where
  | auto
  | on
  | off
deriving DecidableEq, Repr

/-- Python truthiness of the `bin_peaks` value: the non-empty string
`"auto"` and `True` are truthy, `False` is falsy.  This is the value of
`bool(self.config.bin_peaks)` as used in `if self.config.bin_peaks or ...`
and in `if not self.config.bin_peaks`. -/
def BinPeaks.truthy : BinPeaks → Bool
  | .auto => true
  | .on => true
  | .off => false

/-- Python equality `self.config.bin_peaks == "auto"` (note `True == "auto"`
is `False` in Python). -/
def BinPeaks.isAuto : BinPeaks → Bool
  | .auto => true
  | _ => false

/-- The configuration fields of `MSExperimentPlotterConfig` that the
data-preparation pipeline reads. -/
structure MSConfig where
  bin_peaks : BinPeaks
  num_RT_bins : ℕ
  num_mz_bins : ℕ
  relative_intensity : Bool
deriving DecidableEq, Repr

/-- Python `max()` over a column (a non-empty sequence); on the empty list we
return 0 (Python would raise, callers establish non-emptiness). -/
def seriesMax : List ℚ → ℚ
  | [] => 0
  | a :: l => l.foldl max a

/-- Series minimum, dual to `seriesMax` (pandas `.min()`). -/
def seriesMin : List ℚ → ℚ
  | [] => 0
  | a :: l => l.foldl min a

/-- The 0.1% end-point adjustment pandas applies in `pd.cut` when the column
is constant: `mn -= .001 * abs(mn) if mn != 0 else .001` (same on `mx`). -/
def adj001 (x : ℚ) : ℚ := if x = 0 then 1 / 1000 else |x| / 1000

/-- Edge `j` (0-based, `0 ≤ j ≤ n`) of the `n` equal-width intervals produced
by `pd.cut(col, bins=n)` on a column with minimum `mn` and maximum `mx`:
`np.linspace(mn, mx, n+1)`, with the leftmost edge lowered by 0.1% of the
range (so the minimum value falls inside the first right-closed interval),
or with both end points pre-adjusted when `mn == mx`.  The significant-digit
rounding pandas applies to the stored breaks when formatting the interval
labels is a float-display detail and is not modelled over ℚ. -/
def cutEdge (mn mx : ℚ) (n : ℕ) (j : ℕ) : ℚ :=
  if mn = mx then
    (mn - adj001 mn) + (j : ℚ) * ((mx + adj001 mx) - (mn - adj001 mn)) / (n : ℚ)
  else if j = 0 then mn - (mx - mn) / 1000
  else mn + (j : ℚ) * (mx - mn) / (n : ℚ)

/-- Minimum of the `mz` column. -/
def mzMin (exp : List Row) : ℚ := seriesMin (exp.map Row.mz)

/-- Maximum of the `mz` column. -/
def mzMax (exp : List Row) : ℚ := seriesMax (exp.map Row.mz)

/-- Minimum of the `RT` column. -/
def rtMin (exp : List Row) : ℚ := seriesMin (exp.map Row.rt)

/-- Maximum of the `RT` column. -/
def rtMax (exp : List Row) : ℚ := seriesMax (exp.map Row.rt)

/-- Edge `j` of the mz bins produced by
`pd.cut(exp["mz"], bins=self.config.num_mz_bins)`. -/
def mzEdge (cfg : MSConfig) (exp : List Row) (j : ℕ) : ℚ :=
  cutEdge (mzMin exp) (mzMax exp) cfg.num_mz_bins j

/-- Edge `j` of the RT bins produced by
`pd.cut(exp["RT"], bins=self.config.num_RT_bins)`. -/
def rtEdge (cfg : MSConfig) (exp : List Row) (j : ℕ) : ℚ :=
  cutEdge (rtMin exp) (rtMax exp) cfg.num_RT_bins j

/-- Midpoint of mz bin `i` (`interval.mid` on the `pd.cut` interval). -/
def mzMid (cfg : MSConfig) (exp : List Row) (i : ℕ) : ℚ :=
  (mzEdge cfg exp i + mzEdge cfg exp (i + 1)) / 2

/-- Midpoint of RT bin `j`. -/
def rtMid (cfg : MSConfig) (exp : List Row) (j : ℕ) : ℚ :=
  (rtEdge cfg exp j + rtEdge cfg exp (j + 1)) / 2

/-- Membership of a value in mz bin `i`: the `pd.cut` intervals are
right-closed, `(edge i, edge (i+1)]`. -/
def inMzBin (cfg : MSConfig) (exp : List Row) (i : ℕ) (x : ℚ) : Bool :=
  decide (mzEdge cfg exp i < x) && decide (x ≤ mzEdge cfg exp (i + 1))

/-- Membership of a value in RT bin `j`. -/
def inRtBin (cfg : MSConfig) (exp : List Row) (j : ℕ) (x : ℚ) : Bool :=
  decide (rtEdge cfg exp j < x) && decide (x ≤ rtEdge cfg exp (j + 1))

/-- The observations of `exp` that fall in the (mz bin `i`, RT bin `j`)
cell of the `groupby(["mz", "RT"])` grouping. -/
def cell (cfg : MSConfig) (exp : List Row) (i j : ℕ) : List Row :=
  exp.filter fun r => inMzBin cfg exp i r.mz && inRtBin cfg exp j r.rt

/-- The intensity of an output cell: the mean of the intensities of the
observations in the cell (`agg({"inty": "mean"})`); an empty cell gets NaN
from the mean, turned into 0 by `exp.fillna(0)`. -/
def cellInty (cfg : MSConfig) (exp : List Row) (i j : ℕ) : ℚ :=
  if (cell cfg exp i j).length = 0 then 0
  else ((cell cfg exp i j).map Row.inty).sum / ((cell cfg exp i j).length : ℚ)

/-- The output row of the binning step for cell `(i, j)`: bin interval
bounds replaced by midpoints, intensity the cell mean (0 when empty). -/
def mkCellRow (cfg : MSConfig) (exp : List Row) (i j : ℕ) : Row :=
  ⟨mzMid cfg exp i, rtMid cfg exp j, cellInty cfg exp i j⟩

/-- The binning block of `MSExperimentPlotter._prepare_data` (lines 43-50):
cut both axes into equal-width intervals, group by the two categorical
columns (pandas `observed=False`: every category pair appears, mz outer and
RT inner, in category order), aggregate intensity by mean, replace intervals
by midpoints, fill empty cells with 0. -/
def binPeaksTable (cfg : MSConfig) (exp : List Row) : List Row :=
  (List.range cfg.num_mz_bins).flatMap fun i =>
    (List.range cfg.num_RT_bins).map fun j => mkCellRow cfg exp i j

/-- The condition of line 39-42:
`self.config.bin_peaks or (exp.shape[0] > num_mz_bins * num_RT_bins and
self.config.bin_peaks == "auto")`, with Python truthiness of the
`Union[Literal["auto"], bool]` value. -/
def binningCond (cfg : MSConfig) (nrows : ℕ) : Bool :=
  cfg.bin_peaks.truthy ||
    (decide (cfg.num_mz_bins * cfg.num_RT_bins < nrows) && cfg.bin_peaks.isAuto)

/-- Line 53: `exp["inty"] = exp["inty"] / max(exp["inty"]) * 100`. -/
def normalizeRelative (exp : List Row) : List Row :=
  let m := seriesMax (exp.map Row.inty)
  exp.map fun r => { r with inty := r.inty / m * 100 }

/-- Line 60: `exp.sort_values("inty")`, an ascending sort on the intensity
column (pandas' default quicksort is unstable, so only the multiset of rows
and the ordering by intensity are specified; a stable insertion sort realises
one admissible outcome). -/
def sortByInty (exp : List Row) : List Row :=
  List.insertionSort (fun a b => a.inty ≤ b.inty) exp

/-- `MSExperimentPlotter._prepare_data` (lines 38-60) as a function from the
input table to the prepared table.  The `hover_text` string column
(lines 55-58) only affects display text and is modelled separately by
`hoverTriple`. -/
def prepare_data (cfg : MSConfig) (exp : List Row) : List Row :=
  let exp1 := if binningCond cfg exp.length then binPeaksTable cfg exp else exp
  let exp2 := if cfg.relative_intensity then normalizeRelative exp1 else exp1
  sortByInty exp2

/-- The value content of the `hover_text` column of line 55-58: the row's
(mz, RT, intensity) triple (the f-string renders them with display rounding,
which no claim depends on). -/
def hoverTriple (r : Row) : ℚ × ℚ × ℚ := (r.mz, r.rt, r.inty)

/-- The parts of the Bokeh figure built by `MSExperimentPlotter._plotBokeh`
that the claims talk about: the `linear_cmap` low/high bounds (lines
123-128) and whether a `HoverTool` was added (lines 138-146). -/
structure BokehPeakMapFigure where
  mapperLow : ℚ
  mapperHigh : ℚ
  hoverToolAdded : Bool
deriving DecidableEq, Repr

/-- `MSExperimentPlotter._plotBokeh`: prepares the data, maps color linearly
between `exp["inty"].min()` and `exp["inty"].max()` of the prepared frame,
and adds the hover tool only under `if not self.config.bin_peaks`. -/
def plotBokeh (cfg : MSConfig) (exp : List Row) : BokehPeakMapFigure :=
  let prepared := prepare_data cfg exp
  ⟨seriesMin (prepared.map Row.inty), seriesMax (prepared.map Row.inty),
    !cfg.bin_peaks.truthy⟩

/-- The part of the Plotly figure built by
`MSExperimentPlotter._plotPlotly` that C7 talks about: the `hovertext`
argument of the `Scattergl` trace (line 189). -/
structure PlotlyPeakMapFigure where
  hovertext : Option (List (ℚ × ℚ × ℚ))
deriving DecidableEq, Repr

/-- `MSExperimentPlotter._plotPlotly`: prepares the data and passes
`hovertext=exp["hover_text"] if not self.config.bin_peaks else None`. -/
def plotPlotly (cfg : MSConfig) (exp : List Row) : PlotlyPeakMapFigure :=
  let prepared := prepare_data cfg exp
  ⟨if !cfg.bin_peaks.truthy then some (prepared.map hoverTriple) else none⟩

/-- A row of the feature-heatmap data: the two spatial columns and the
intensity column `z` used by `PLOTLYFeatureHeatmapPlot.plot`. -/
structure HRow where
  x : ℚ
  y : ℚ
  z : ℚ
deriving DecidableEq, Repr

/-- pandas `Series.unique()`: the distinct values in first-occurrence
order. -/
def pdUnique : List ℚ → List ℚ
  | [] => []
  | a :: l => a :: pdUnique (l.filter (· != a))
termination_by l => l.length
decreasing_by
  simp only [List.length_cons]
  exact Nat.lt_succ_of_le (List.length_filter_le _ _)

/-- The marker of the `Scattergl` trace assembled by
`PLOTLYFeatureHeatmapPlot.plot` (lines 487-493):
`color=self.data[z].unique(), cmin=self.data[z].min(),
cmax=self.data[z].max()` — the color-scale domain `[cmin, cmax]` comes from
the full data column, while the per-marker color array is (buggily, per the
source TODO) the unique-value array. -/
structure PlotlyMarker where
  colorVals : List ℚ
  cmin : ℚ
  cmax : ℚ
deriving DecidableEq, Repr

/-- The marker built at lines 489-493 of `_plotly/core.py`. -/
def plotlyFeatureHeatmapMarker (data : List HRow) : PlotlyMarker :=
  ⟨pdUnique (data.map HRow.z), seriesMin (data.map HRow.z),
    seriesMax (data.map HRow.z)⟩

/-- The message of the `ImportError` raised by `PLOTLYPlot._load_extension`
when `import plotly.graph_objects` fails. -/
def plotly_import_error_message : String :=
  "plotly is not installed. Please install using `pip install plotly` to use this plotting library in pyopenms-viz"

/-- `PLOTLYPlot._load_extension` (lines 28-37 of `_plotly/core.py`): tries
to import plotly and otherwise raises the `ImportError` above.  The raise is
modelled by `Except.error`: the call ends immediately and produces no
value. -/
def load_extension (plotlyAvailable : Bool) : Except String Unit :=
  if plotlyAvailable then Except.ok () else Except.error plotly_import_error_message

/-- A row of a spectrum table: the x (m/z) and y (intensity) columns the
VLine plot reads. -/
structure SRow where
  x : ℚ
  y : ℚ
deriving DecidableEq, Repr

/-- A rendered Plotly trace as assembled by `PLOTLYVLinePlot.plot`:
`x=[row[x]] * 2`, `y=[0, row[y]]`, plus the showlegend flag. -/
structure PTrace where
  xs : List ℚ
  ys : List ℚ
  showlegend : Bool
deriving DecidableEq, Repr

/-- One stick of the VLine plot for a data row. -/
def mkVLineTrace (r : SRow) (sl : Bool) : PTrace :=
  ⟨[r.x, r.x], [0, r.y], sl⟩

/-- The `by=None` branch of `PLOTLYVLinePlot.plot` (lines 242-262): one
`Scattergl` stick per row; only the first trace of the group carries the
legend flag (`first_group_trace_showlenged` becomes `False` after the first
iteration). -/
def vlineTraces (data : List SRow) (showlegendFirst : Bool) : List PTrace :=
  match data with
  | [] => []
  | r :: rest => mkVLineTrace r showlegendFirst :: rest.map (mkVLineTrace · false)

/-- The configuration field of `SpectrumPlot` that `PLOTLYSpectrumPlot.plot`
reads at line 446. -/
structure SpectrumConfig where
  mirror_spectrum : Bool
deriving DecidableEq, Repr

/-- The state of a `PLOTLYSpectrumPlot` object: the stored spectrum and the
stored optional reference spectrum. -/
structure SpectrumPlotState where
  data : List SRow
  reference_spectrum : Option (List SRow)
deriving DecidableEq, Repr

/-- The parts of the Plotly spectrum figure the claims talk about: the
accumulated VLine traces and the horizontal baselines added with
`add_hline`. -/
structure SpecFigure where
  traces : List PTrace
  hlines : List ℚ
deriving DecidableEq, Repr

/-- Modelled from the spec: `SpectrumPlot._prepare_data` is defined in
`pyopenms_viz/plotting/_core.py`, which is not among the sources here; the
spec describes no value transformation for it and states that mirrored
intensities are "negated only for display; underlying stored values remain
positive elsewhere", so the preparation is modelled as handing the plot
routine independent copies of the spectrum and the reference spectrum,
unchanged in value. -/
def spectrum_prepare_data (data : List SRow) (ref : Option (List SRow)) :
    List SRow × Option (List SRow) :=
  (data, ref)

/-- `PLOTLYSpectrumPlot.plot` (lines 413-455 of `_plotly/core.py`),
restricted to the trace-building effects: plot the spectrum as VLine
sticks; if `self.config.mirror_spectrum` and a reference spectrum is
present, negate the reference's intensity column
(`reference_spectrum[y] = reference_spectrum[y] * -1`, acting on the local
prepared frame), plot it as a second VLine group with `showlegend=False`,
and add a zero baseline.  The returned pair is (object state after the
call, figure). -/
def plotlySpectrum_plot (cfg : SpectrumConfig) (st : SpectrumPlotState) :
    SpectrumPlotState × SpecFigure :=
  let pr := spectrum_prepare_data st.data st.reference_spectrum
  let mainTraces := vlineTraces pr.1 true
  match cfg.mirror_spectrum, pr.2 with
  | true, some refFrame =>
    let negRef := refFrame.map fun r => { r with y := r.y * -1 }
    (st, ⟨mainTraces ++ vlineTraces negRef false, [0]⟩)
  | true, none => (st, ⟨mainTraces, []⟩)
  | false, _ => (st, ⟨mainTraces, []⟩)

/-- A pandas column value in the store-level model of `_prepare_data`: a
number, an Interval produced by `pd.cut`, or NaN. -/
inductive CV where
  | q (x : ℚ)
  | itv (lo hi : ℚ)
  | nan
deriving DecidableEq, Repr

/-- A row of a DataFrame as mutated in place by `_prepare_data`: the mz/RT
columns (numeric or interval-valued after `pd.cut`), the intensity column,
and the synthesized `hover_text` column (represented by its value
triple). -/
structure PRow where
  mz : CV
  rt : CV
  inty : CV
  hover : Option (ℚ × ℚ × ℚ)
deriving DecidableEq, Repr

/-- Numeric reading of a column value (non-numeric cells would raise in
Python; claims only use it on numeric cells). -/
def CV.toQ : CV → ℚ
  | .q x => x
  | .itv _ _ => 0
  | .nan => 0

/-- Injection of an observation row into the store-level row type. -/
def Row.toP (r : Row) : PRow := ⟨.q r.mz, .q r.rt, .q r.inty, none⟩

/-- Numeric projection of a store-level frame. -/
def fromP (f : List PRow) : List Row :=
  f.map fun r => ⟨r.mz.toQ, r.rt.toQ, r.inty.toQ⟩

/-- The mz bin index `pd.cut` assigns to a value (None models NaN). -/
def mzBinIdx (cfg : MSConfig) (exp : List Row) (x : ℚ) : Option ℕ :=
  (List.range cfg.num_mz_bins).find? fun i => inMzBin cfg exp i x

/-- The RT bin index `pd.cut` assigns to a value. -/
def rtBinIdx (cfg : MSConfig) (exp : List Row) (x : ℚ) : Option ℕ :=
  (List.range cfg.num_RT_bins).find? fun i => inRtBin cfg exp i x

/-- The Interval (or NaN) cell value `pd.cut` stores for a bin index. -/
def cutCV (edges : ℕ → ℚ) : Option ℕ → CV
  | some i => CV.itv (edges i) (edges (i + 1))
  | none => CV.nan

/-- The frame after the two in-place `pd.cut` column assignments of lines
43-44: mz and RT replaced by their bin intervals. -/
def cutFrame (cfg : MSConfig) (exp0 : List Row) : List PRow :=
  exp0.map fun r =>
    ⟨cutCV (mzEdge cfg exp0) (mzBinIdx cfg exp0 r.mz),
      cutCV (rtEdge cfg exp0) (rtBinIdx cfg exp0 r.rt), CV.q r.inty, none⟩

/-- The cell intensity before `fillna`: NaN for an empty cell, otherwise
the group mean. -/
def cellMeanCV (cfg : MSConfig) (exp0 : List Row) (i j : ℕ) : CV :=
  if (cell cfg exp0 i j).length = 0 then CV.nan
  else CV.q (((cell cfg exp0 i j).map Row.inty).sum / ((cell cfg exp0 i j).length : ℚ))

/-- The fresh frame produced by
`exp.groupby(["mz", "RT"]).agg({"inty": "mean"}).reset_index()` (line 47):
one row per category pair, intervals still in the index columns, mean (or
NaN) intensity. -/
def groupFrame (cfg : MSConfig) (exp0 : List Row) : List PRow :=
  (List.range cfg.num_mz_bins).flatMap fun i =>
    (List.range cfg.num_RT_bins).map fun j =>
      ⟨CV.itv (mzEdge cfg exp0 i) (mzEdge cfg exp0 (i + 1)),
        CV.itv (rtEdge cfg exp0 j) (rtEdge cfg exp0 (j + 1)),
        cellMeanCV cfg exp0 i j, none⟩

/-- The frame after the two in-place midpoint assignments of lines 48-49. -/
def midFrame (cfg : MSConfig) (exp0 : List Row) : List PRow :=
  (List.range cfg.num_mz_bins).flatMap fun i =>
    (List.range cfg.num_RT_bins).map fun j =>
      ⟨CV.q (mzMid cfg exp0 i), CV.q (rtMid cfg exp0 j), cellMeanCV cfg exp0 i j, none⟩

/-- The fresh frame returned by `exp.fillna(0)` (line 50): NaN means become
0; this is the numeric binned table. -/
def fillFrame (cfg : MSConfig) (exp0 : List Row) : List PRow :=
  (binPeaksTable cfg exp0).map Row.toP

/-- In-place effect of line 53 on a frame. -/
def normFrameP (f : List PRow) : List PRow :=
  let m := seriesMax (f.map fun r => r.inty.toQ)
  f.map fun r => { r with inty := CV.q (r.inty.toQ / m * 100) }

/-- In-place effect of lines 55-58: the `hover_text` column is written. -/
def hoverFrameP (f : List PRow) : List PRow :=
  f.map fun r => { r with hover := some (r.mz.toQ, r.rt.toQ, r.inty.toQ) }

/-- The fresh frame returned by `exp.sort_values("inty")` (line 60). -/
def sortFrameP (f : List PRow) : List PRow :=
  List.insertionSort (fun a b => a.inty.toQ ≤ b.inty.toQ) f

/-- A heap of DataFrames; a Python variable holding a DataFrame is an index
into it.  This makes the in-place column writes of `_prepare_data` visible
to every alias of the same frame. -/
abbrev Store := List (List PRow)

/-- Dereference a frame variable. -/
def getF (s : Store) (r : ℕ) : List PRow := s.getD r []

/-- In-place update of the frame a variable points to. -/
def setF (s : Store) (r : ℕ) (f : List PRow) : Store := s.set r f

/-- Allocation of a fresh DataFrame (pandas operations that return new
frames, and `exp.copy()`). -/
def allocF (s : Store) (f : List PRow) : Store × ℕ := (s ++ [f], s.length)

/-- The tail of `_prepare_data` shared by both branches (lines 52-60):
optional in-place relative-intensity normalization, in-place hover-text
synthesis, and the final `sort_values` returning a fresh frame. -/
def prepareTail (cfg : MSConfig) (s : Store) (r : ℕ) : Store × ℕ :=
  let s1 := if cfg.relative_intensity then setF s r (normFrameP (getF s r)) else s
  let s2 := setF s1 r (hoverFrameP (getF s1 r))
  allocF s2 (sortFrameP (getF s2 r))

/-- `MSExperimentPlotter._prepare_data` at the store level: the local name
`exp` starts at `r`; lines 43-44 write the cut columns in place at `r`,
line 47 rebinds `exp` to a fresh grouped frame, lines 48-49 write midpoints
in place there, line 50 rebinds to the fresh `fillna` result, and the tail
runs on whatever `exp` then denotes.  Values are computed from the numeric
content `exp0` of the incoming frame (the store-level statements write
exactly the frames the pandas calls would produce from it). -/
def prepare_data_store (cfg : MSConfig) (s : Store) (r : ℕ) : Store × ℕ :=
  let exp0 := fromP (getF s r)
  if binningCond cfg exp0.length then
    let s1 := setF s r (cutFrame cfg exp0)
    let a2 := allocF s1 (groupFrame cfg exp0)
    let s3 := setF a2.1 a2.2 (midFrame cfg exp0)
    let a4 := allocF s3 (fillFrame cfg exp0)
    prepareTail cfg a4.1 a4.2
  else
    prepareTail cfg s r

/-- The `engine` selector of the functional API. -/
inductive Engine where
  | PLOTLY
  | BOKEH
  | MATPLOTLIB
deriving DecidableEq, Repr

/-- Modelled from the spec: `_BasePlotter.plot` (in
`pyopenms_viz/BasePlotter.py`, not among the sources here) dispatches on
the configured engine to `_plotMatplotlib` / `_plotBokeh` / `_plotPlotly`;
each of those (lines 80, 121, 170 of `MSExperimentPlotter.py`) rebinds
`exp = self._prepare_data(exp)` and afterwards only reads the prepared
frame to assemble the figure, so the store effect of the plot call is that
of `_prepare_data` in every branch. -/
def plot_store (cfg : MSConfig) (engine : Engine) (s : Store) (r : ℕ) : Store × ℕ :=
  match engine with
  | .PLOTLY => prepare_data_store cfg s r
  | .BOKEH => prepare_data_store cfg s r
  | .MATPLOTLIB => prepare_data_store cfg s r

/-- The functional entry point `plotMSExperiment` (lines 202-250): builds
the config and calls `plotter.plot(exp.copy())` — the plotter receives a
fresh copy of the caller's frame. -/
def plotMSExperiment_store (cfg : MSConfig) (engine : Engine) (s : Store) (r : ℕ) :
    Store × ℕ :=
  let a := allocF s (getF s r)
  plot_store cfg engine a.1 a.2

/-! Helper lemmas about series maxima and minima. -/

theorem le_foldl_max (l : List ℚ) (a : ℚ) : a ≤ l.foldl max a := by
  induction l generalizing a with
  | nil => exact le_refl a
  | cons x xs ih => exact (le_max_left a x).trans (ih (max a x))

theorem mem_le_foldl_max (l : List ℚ) (a x : ℚ) (hx : x ∈ l) : x ≤ l.foldl max a := by
  induction l generalizing a with
  | nil => simp at hx
  | cons y ys ih =>
    simp only [List.foldl_cons]
    rcases List.mem_cons.mp hx with rfl | h
    · exact le_trans (le_max_right _ _) (le_foldl_max _ _)
    · exact ih _ h

theorem foldl_max_mem (l : List ℚ) (a : ℚ) : l.foldl max a ∈ a :: l := by
  induction l generalizing a with
  | nil => simp
  | cons x xs ih =>
    simp only [List.foldl_cons]
    rcases List.mem_cons.mp (ih (max a x)) with h | h
    · rcases max_choice a x with h' | h' <;> rw [h] at * <;> simp [h']
    · simp [h]

theorem le_seriesMax (l : List ℚ) (x : ℚ) (hx : x ∈ l) : x ≤ seriesMax l := by
  cases l with
  | nil => simp at hx
  | cons a t =>
    rcases List.mem_cons.mp hx with rfl | h
    · exact le_foldl_max _ _
    · exact mem_le_foldl_max _ _ _ h

theorem seriesMax_mem (l : List ℚ) (h : l ≠ []) : seriesMax l ∈ l := by
  cases l with
  | nil => exact absurd rfl h
  | cons a t => exact foldl_max_mem t a

theorem seriesMax_eq_of (l : List ℚ) (a : ℚ) (h1 : a ∈ l) (h2 : ∀ x ∈ l, x ≤ a) :
    seriesMax l = a := by
  have hne : l ≠ [] := by intro h; subst h; simp at h1
  exact le_antisymm (h2 _ (seriesMax_mem l hne)) (le_seriesMax l a h1)

theorem foldl_min_le (l : List ℚ) (a : ℚ) : l.foldl min a ≤ a := by
  induction l generalizing a with
  | nil => simp
  | cons x xs ih =>
    simp only [List.foldl_cons]
    exact le_trans (ih _) (min_le_left _ _)

theorem foldl_min_le_mem (l : List ℚ) (a x : ℚ) (hx : x ∈ l) : l.foldl min a ≤ x := by
  induction l generalizing a with
  | nil => simp at hx
  | cons y ys ih =>
    simp only [List.foldl_cons]
    rcases List.mem_cons.mp hx with rfl | h
    · exact le_trans (foldl_min_le _ _) (min_le_right _ _)
    · exact ih _ h

theorem foldl_min_mem (l : List ℚ) (a : ℚ) : l.foldl min a ∈ a :: l := by
  induction l generalizing a with
  | nil => simp
  | cons x xs ih =>
    simp only [List.foldl_cons]
    rcases List.mem_cons.mp (ih (min a x)) with h | h
    · rcases min_choice a x with h' | h' <;> rw [h] at * <;> simp [h']
    · simp [h]

theorem seriesMin_le (l : List ℚ) (x : ℚ) (hx : x ∈ l) : seriesMin l ≤ x := by
  cases l with
  | nil => simp at hx
  | cons a t =>
    rcases List.mem_cons.mp hx with rfl | h
    · exact foldl_min_le _ _
    · exact foldl_min_le_mem _ _ _ h

theorem seriesMin_mem (l : List ℚ) (h : l ≠ []) : seriesMin l ∈ l := by
  cases l with
  | nil => exact absurd rfl h
  | cons a t => exact foldl_min_mem t a

/-- C1.  The claim says that with `bin_peaks="auto"` and a row count at most
`num_mz_bins * num_RT_bins` no binning is applied and the output rows equal
the input rows.  The code contradicts this (and its own docstring: "If set
to 'auto' any MSExperiment with more then num_RT_bins x num_mz_bins peaks
will be binned"): in `if self.config.bin_peaks or (...)` the non-empty
string `"auto"` is truthy, so the binning branch runs for every table.  At a
1-row table with 2x2 bins (1 ≤ 4) the condition is nevertheless true, the
guard of the claim (row count above threshold) is false, and the prepared
output has 4 rows, not the input row. -/
theorem c1_auto_binning_runs_below_threshold :
    binningCond ⟨.auto, 2, 2, false⟩ 1 = true ∧
    ¬ ((⟨.auto, 2, 2, false⟩ : MSConfig).num_mz_bins *
        (⟨.auto, 2, 2, false⟩ : MSConfig).num_RT_bins < 1) ∧
    (prepare_data ⟨.auto, 2, 2, false⟩ [⟨100, 1, 10⟩]).length = 4 ∧
    prepare_data ⟨.auto, 2, 2, false⟩ [⟨100, 1, 10⟩] ≠ [⟨100, 1, 10⟩] := by
  refine ⟨by decide, by decide, by decide, by decide⟩

/-- C4.  When `relative_intensity` is set (and no binning runs), line 53
rescales every intensity to `inty / max(inty) * 100`: the prepared intensity
column is, up to the final intensity sort, the original column divided by
its maximum and multiplied by 100, and its maximum is exactly 100. -/
theorem c4_relative_intensity_normalization (cfg : MSConfig) (exp : List Row)
    (hrel : cfg.relative_intensity = true) (hbin : cfg.bin_peaks = .off)
    (hne : exp ≠ []) (hpos : 0 < seriesMax (exp.map Row.inty)) :
    ((prepare_data cfg exp).map Row.inty).Perm
      (exp.map fun r => r.inty / seriesMax (exp.map Row.inty) * 100) ∧
    seriesMax ((prepare_data cfg exp).map Row.inty) = 100 := by
  have hcond : binningCond cfg exp.length = false := by
    simp [binningCond, hbin, BinPeaks.truthy, BinPeaks.isAuto]
  have hprep : prepare_data cfg exp = sortByInty (normalizeRelative exp) := by
    simp [prepare_data, hcond, hrel]
  set m := seriesMax (exp.map Row.inty) with hm
  have hmapnorm : (normalizeRelative exp).map Row.inty =
      exp.map fun r => r.inty / m * 100 := by
    simp [normalizeRelative, List.map_map]
  have hperm : ((prepare_data cfg exp).map Row.inty).Perm
      (exp.map fun r => r.inty / m * 100) := by
    rw [hprep]
    have hs : (sortByInty (normalizeRelative exp)).Perm (normalizeRelative exp) :=
      List.perm_insertionSort _ _
    exact (hs.map Row.inty).trans (by rw [hmapnorm])
  refine ⟨hperm, ?_⟩
  apply seriesMax_eq_of
  · rw [hperm.mem_iff]
    have hmem : m ∈ exp.map Row.inty := seriesMax_mem _ (by simpa using hne)
    rcases List.mem_map.mp hmem with ⟨r, hr, hrm⟩
    refine List.mem_map.mpr ⟨r, hr, ?_⟩
    rw [hrm, div_self (ne_of_gt hpos)]
    norm_num
  · intro x hx
    rw [hperm.mem_iff] at hx
    rcases List.mem_map.mp hx with ⟨r, hr, hrm⟩
    have hle : r.inty ≤ m := le_seriesMax _ _ (List.mem_map.mpr ⟨r, hr, rfl⟩)
    have : r.inty / m ≤ 1 := (div_le_one hpos).mpr hle
    calc x = r.inty / m * 100 := hrm.symm
      _ ≤ 1 * 100 := by nlinarith
      _ = 100 := by norm_num

theorem binPeaksTable_length (cfg : MSConfig) (exp : List Row) :
    (binPeaksTable cfg exp).length = cfg.num_mz_bins * cfg.num_RT_bins := by
  simp [binPeaksTable, Function.comp_def, List.map_const]

theorem sortByInty_length (exp : List Row) : (sortByInty exp).length = exp.length :=
  List.length_insertionSort _ _

theorem sortByInty_perm (exp : List Row) : (sortByInty exp).Perm exp :=
  List.perm_insertionSort _ _

theorem prepare_data_length_binned (cfg : MSConfig) (exp : List Row)
    (hb : binningCond cfg exp.length = true) (hrel : cfg.relative_intensity = false) :
    (prepare_data cfg exp).length = cfg.num_mz_bins * cfg.num_RT_bins := by
  simp [prepare_data, hb, hrel, sortByInty_length, binPeaksTable_length]

/-- C2.  When the binning branch runs, the prepared table has at most
`num_mz_bins * num_RT_bins` rows (in fact exactly that many: pandas
`groupby` on the two categorical columns with `observed=False` yields every
category pair), and every output row carries the midpoints of its mz/RT bin
intervals together with the mean intensity of the observations falling in
that cell (`cellInty`, which is the mean of the cell and 0 for an empty
cell). -/
theorem c2_binning_bound_and_cell_means (cfg : MSConfig) (exp : List Row)
    (hb : binningCond cfg exp.length = true) (hrel : cfg.relative_intensity = false) :
    (prepare_data cfg exp).length ≤ cfg.num_mz_bins * cfg.num_RT_bins ∧
    ∀ row ∈ prepare_data cfg exp, ∃ i j, i < cfg.num_mz_bins ∧ j < cfg.num_RT_bins ∧
      row.mz = mzMid cfg exp i ∧ row.rt = rtMid cfg exp j ∧
      row.inty = cellInty cfg exp i j := by
  constructor
  · exact le_of_eq (prepare_data_length_binned cfg exp hb hrel)
  · intro row hrow
    have hprep : prepare_data cfg exp = sortByInty (binPeaksTable cfg exp) := by
      simp [prepare_data, hb, hrel]
    rw [hprep, (sortByInty_perm _).mem_iff] at hrow
    rcases List.mem_flatMap.mp hrow with ⟨i, hi, hrow'⟩
    rcases List.mem_map.mp hrow' with ⟨j, hj, hrow''⟩
    exact ⟨i, j, List.mem_range.mp hi, List.mem_range.mp hj,
      by rw [← hrow'']; rfl, by rw [← hrow'']; rfl, by rw [← hrow'']; rfl⟩

/-- Witness for C2 at the spec's worked example: three points
`(mz,RT,inty) = (100,1,10), (200,2,20), (300,3,5)` with 2x2 bins and
`bin_peaks` on give at most 4 rows, each a bin-midpoint pair with the
cell-mean intensity. -/
theorem c2_binning_bound_and_cell_means_witness :
    (prepare_data ⟨.on, 2, 2, false⟩
        [⟨100, 1, 10⟩, ⟨200, 2, 20⟩, ⟨300, 3, 5⟩]).length ≤ 2 * 2 ∧
    ∀ row ∈ prepare_data ⟨.on, 2, 2, false⟩
        [⟨100, 1, 10⟩, ⟨200, 2, 20⟩, ⟨300, 3, 5⟩],
      ∃ i j, i < 2 ∧ j < 2 ∧
        row.mz = mzMid ⟨.on, 2, 2, false⟩ [⟨100, 1, 10⟩, ⟨200, 2, 20⟩, ⟨300, 3, 5⟩] i ∧
        row.rt = rtMid ⟨.on, 2, 2, false⟩ [⟨100, 1, 10⟩, ⟨200, 2, 20⟩, ⟨300, 3, 5⟩] j ∧
        row.inty = cellInty ⟨.on, 2, 2, false⟩ [⟨100, 1, 10⟩, ⟨200, 2, 20⟩, ⟨300, 3, 5⟩] i j :=
  c2_binning_bound_and_cell_means ⟨.on, 2, 2, false⟩
    [⟨100, 1, 10⟩, ⟨200, 2, 20⟩, ⟨300, 3, 5⟩] rfl rfl

/-- C3.  When binning runs, every (mz-bin, RT-bin) cell with no observation
still appears in the prepared output, with intensity exactly 0 (the mean of
the empty group is NaN and `exp.fillna(0)` replaces it by 0). -/
theorem c3_empty_cell_intensity_zero (cfg : MSConfig) (exp : List Row)
    (hb : binningCond cfg exp.length = true) (hrel : cfg.relative_intensity = false)
    (i j : ℕ) (hi : i < cfg.num_mz_bins) (hj : j < cfg.num_RT_bins)
    (hcell : cell cfg exp i j = []) :
    (⟨mzMid cfg exp i, rtMid cfg exp j, 0⟩ : Row) ∈ prepare_data cfg exp := by
  have hrow : mkCellRow cfg exp i j = ⟨mzMid cfg exp i, rtMid cfg exp j, 0⟩ := by
    simp [mkCellRow, cellInty, hcell]
  have hmem : mkCellRow cfg exp i j ∈ binPeaksTable cfg exp :=
    List.mem_flatMap.mpr ⟨i, List.mem_range.mpr hi,
      List.mem_map.mpr ⟨j, List.mem_range.mpr hj, rfl⟩⟩
  have hprep : prepare_data cfg exp = sortByInty (binPeaksTable cfg exp) := by
    simp [prepare_data, hb, hrel]
  rw [hprep, (sortByInty_perm _).mem_iff]
  rw [← hrow]
  exact hmem

/-- Witness for C3: in the spec's worked example the cell (mz bin 0, RT bin
1) holds no observation and the output contains its midpoint row with
intensity exactly 0. -/
theorem c3_empty_cell_intensity_zero_witness :
    (⟨mzMid ⟨.on, 2, 2, false⟩ [⟨100, 1, 10⟩, ⟨200, 2, 20⟩, ⟨300, 3, 5⟩] 0,
      rtMid ⟨.on, 2, 2, false⟩ [⟨100, 1, 10⟩, ⟨200, 2, 20⟩, ⟨300, 3, 5⟩] 1, 0⟩ : Row) ∈
      prepare_data ⟨.on, 2, 2, false⟩ [⟨100, 1, 10⟩, ⟨200, 2, 20⟩, ⟨300, 3, 5⟩] :=
  c3_empty_cell_intensity_zero ⟨.on, 2, 2, false⟩
    [⟨100, 1, 10⟩, ⟨200, 2, 20⟩, ⟨300, 3, 5⟩] rfl rfl 0 1
    (by decide) (by decide) (by decide)

/-- Witness for C4 at the spec's example: intensities `[10, 20, 5]` are
rescaled to a permutation of `[50, 100, 25]` and the output maximum is
exactly 100. -/
theorem c4_relative_intensity_normalization_witness :
    ((prepare_data ⟨.off, 2, 2, true⟩
        [⟨1, 1, 10⟩, ⟨2, 2, 20⟩, ⟨3, 3, 5⟩]).map Row.inty).Perm
      ([⟨1, 1, 10⟩, ⟨2, 2, 20⟩, ⟨3, 3, 5⟩].map fun r : Row =>
        r.inty / seriesMax ([⟨1, 1, 10⟩, ⟨2, 2, 20⟩, ⟨3, 3, 5⟩].map Row.inty) * 100) ∧
    seriesMax ((prepare_data ⟨.off, 2, 2, true⟩
        [⟨1, 1, 10⟩, ⟨2, 2, 20⟩, ⟨3, 3, 5⟩]).map Row.inty) = 100 :=
  c4_relative_intensity_normalization ⟨.off, 2, 2, true⟩
    [⟨1, 1, 10⟩, ⟨2, 2, 20⟩, ⟨3, 3, 5⟩] rfl rfl (by decide) (by decide)

/-! Claims about the spectrum plot and its mirrored reference trace. -/

theorem vlineTraces_length (l : List SRow) (b : Bool) :
    (vlineTraces l b).length = l.length := by
  cases l <;> simp [vlineTraces]

theorem vlineTraces_getElem (l : List SRow) (b : Bool) (k : ℕ) (hk : k < l.length) :
    ∃ sl, (vlineTraces l b)[k]? = some (mkVLineTrace (l.get ⟨k, hk⟩) sl) := by
  cases l with
  | nil => simp at hk
  | cons r rest =>
    cases k with
    | zero => exact ⟨b, by simp [vlineTraces]⟩
    | succ n =>
      have hn : n < rest.length := Nat.lt_of_succ_lt_succ hk
      exact ⟨false, by
        simp [vlineTraces, List.getElem?_map, List.getElem?_eq_getElem hn]⟩

/-- C5.  With `mirror_spectrum` on and a reference spectrum present, the
mirror trace block starts right after the main spectrum's sticks, and the
stick for reference row `k` goes from the baseline 0 to `-1` times that
row's intensity (`reference_spectrum[y] = reference_spectrum[y] * -1`
followed by the VLine `y=[0, row[y]]`). -/
theorem c5_mirror_trace_negates_reference (cfg : SpectrumConfig)
    (st : SpectrumPlotState) (refF : List SRow) (hm : cfg.mirror_spectrum = true)
    (hr : st.reference_spectrum = some refF) (k : ℕ) (hk : k < refF.length) :
    ∃ tr : PTrace,
      ((plotlySpectrum_plot cfg st).2.traces)[st.data.length + k]? = some tr ∧
      tr.ys = [0, (refF.get ⟨k, hk⟩).y * -1] := by
  have hfig : (plotlySpectrum_plot cfg st).2.traces =
      vlineTraces st.data true ++
        vlineTraces (refF.map fun r => { r with y := r.y * -1 }) false := by
    simp [plotlySpectrum_plot, spectrum_prepare_data, hm, hr]
  have hklt : k < (refF.map fun r : SRow => { r with y := r.y * -1 }).length := by
    simpa using hk
  obtain ⟨sl, hsl⟩ :=
    vlineTraces_getElem (refF.map fun r => { r with y := r.y * -1 }) false k hklt
  refine ⟨mkVLineTrace ((refF.map fun r => { r with y := r.y * -1 }).get ⟨k, hklt⟩) sl,
    ?_, ?_⟩
  · rw [hfig, List.getElem?_append_right (by simp [vlineTraces_length])]
    rw [vlineTraces_length]
    simpa [Nat.add_sub_cancel_left] using hsl
  · simp [mkVLineTrace, List.getElem_map]

/-- Witness for C5: spectrum `[(x=1, y=5)]`, reference `[(x=2, y=7)]`,
mirror on — the trace after the main stick runs from 0 to `7 * -1`. -/
theorem c5_mirror_trace_negates_reference_witness :
    ∃ tr : PTrace,
      ((plotlySpectrum_plot ⟨true⟩ ⟨[⟨1, 5⟩], some [⟨2, 7⟩]⟩).2.traces)[
          ([⟨1, 5⟩] : List SRow).length + 0]? = some tr ∧
      tr.ys = [0, (([⟨2, 7⟩] : List SRow).get ⟨0, by decide⟩).y * -1] :=
  c5_mirror_trace_negates_reference ⟨true⟩ ⟨[⟨1, 5⟩], some [⟨2, 7⟩]⟩ [⟨2, 7⟩]
    rfl rfl 0 (by decide)

/-- C6.  The plot call leaves the object's stored reference spectrum
untouched: the negation of line 448 happens on the frame handed out by the
data preparation, so stored intensities that were positive before the call
are still positive after it. -/
theorem c6_stored_reference_stays_positive (cfg : SpectrumConfig)
    (st : SpectrumPlotState) (refF : List SRow)
    (hr : st.reference_spectrum = some refF) (hpos : ∀ r ∈ refF, 0 < r.y) :
    (plotlySpectrum_plot cfg st).1 = st ∧
    ∀ r ∈ (plotlySpectrum_plot cfg st).1.reference_spectrum.getD [], 0 < r.y := by
  have h1 : (plotlySpectrum_plot cfg st).1 = st := by
    unfold plotlySpectrum_plot
    cases cfg.mirror_spectrum <;> cases st.reference_spectrum <;> rfl
  refine ⟨h1, ?_⟩
  rw [h1, hr]
  simpa using hpos

/-- Witness for C6 at a concrete spectrum state with positive stored
reference intensities. -/
theorem c6_stored_reference_stays_positive_witness :
    (plotlySpectrum_plot ⟨true⟩ ⟨[⟨1, 5⟩], some [⟨2, 7⟩]⟩).1 =
      (⟨[⟨1, 5⟩], some [⟨2, 7⟩]⟩ : SpectrumPlotState) ∧
    ∀ r ∈ (plotlySpectrum_plot ⟨true⟩
        ⟨[⟨1, 5⟩], some [⟨2, 7⟩]⟩).1.reference_spectrum.getD [], 0 < r.y :=
  c6_stored_reference_stays_positive ⟨true⟩ ⟨[⟨1, 5⟩], some [⟨2, 7⟩]⟩ [⟨2, 7⟩]
    rfl (by decide)

/-- C7.  Hover tooltips are attached exactly when binning did not occur: in
the code, binning runs iff `bool(bin_peaks)` is true (see C1), and both
backends attach hover information iff `not bool(bin_peaks)`, so the two
conditions coincide for every configuration and dataset. -/
theorem c7_hover_iff_no_binning (cfg : MSConfig) (exp : List Row) :
    ((plotBokeh cfg exp).hoverToolAdded = true ↔
      binningCond cfg exp.length = false) ∧
    ((plotPlotly cfg exp).hovertext.isSome = true ↔
      binningCond cfg exp.length = false) := by
  cases h : cfg.bin_peaks <;>
    simp [plotBokeh, plotPlotly, binningCond, h, BinPeaks.truthy, BinPeaks.isAuto]

/-- C8.  The color-scale domain spans the global minimum and maximum
intensity of the full plotted dataset in both cited backends: the Plotly
feature-heatmap marker's `[cmin, cmax]` are the min and max of the whole
`z` column (even though the per-marker color array is the unique-value
array), and the Bokeh `linear_cmap` low/high bounds are the min and max of
the whole prepared intensity column — every plotted value lies inside the
domain and both end points are attained. -/
theorem c8_color_domain_spans_dataset (data : List HRow) (cfg : MSConfig)
    (exp : List Row) (hd : data ≠ []) (he : prepare_data cfg exp ≠ []) :
    ((plotlyFeatureHeatmapMarker data).cmin ∈ data.map HRow.z ∧
      (plotlyFeatureHeatmapMarker data).cmax ∈ data.map HRow.z ∧
      ∀ r ∈ data, (plotlyFeatureHeatmapMarker data).cmin ≤ r.z ∧
        r.z ≤ (plotlyFeatureHeatmapMarker data).cmax) ∧
    ((plotBokeh cfg exp).mapperLow ∈ (prepare_data cfg exp).map Row.inty ∧
      (plotBokeh cfg exp).mapperHigh ∈ (prepare_data cfg exp).map Row.inty ∧
      ∀ r ∈ prepare_data cfg exp, (plotBokeh cfg exp).mapperLow ≤ r.inty ∧
        r.inty ≤ (plotBokeh cfg exp).mapperHigh) := by
  have hd' : data.map HRow.z ≠ [] := by simpa using hd
  have he' : (prepare_data cfg exp).map Row.inty ≠ [] := by simpa using he
  refine ⟨⟨seriesMin_mem _ hd', seriesMax_mem _ hd', fun r hr => ?_⟩,
    ⟨seriesMin_mem _ he', seriesMax_mem _ he', fun r hr => ?_⟩⟩
  · exact ⟨seriesMin_le _ _ (List.mem_map.mpr ⟨r, hr, rfl⟩),
      le_seriesMax _ _ (List.mem_map.mpr ⟨r, hr, rfl⟩)⟩
  · exact ⟨seriesMin_le _ _ (List.mem_map.mpr ⟨r, hr, rfl⟩),
      le_seriesMax _ _ (List.mem_map.mpr ⟨r, hr, rfl⟩)⟩

/-- Witness for C8 at a concrete heatmap dataset and peak-map dataset. -/
theorem c8_color_domain_spans_dataset_witness :
    ((plotlyFeatureHeatmapMarker [⟨1, 1, 5⟩, ⟨2, 2, 7⟩]).cmin ∈
        ([⟨1, 1, 5⟩, ⟨2, 2, 7⟩] : List HRow).map HRow.z ∧
      (plotlyFeatureHeatmapMarker [⟨1, 1, 5⟩, ⟨2, 2, 7⟩]).cmax ∈
        ([⟨1, 1, 5⟩, ⟨2, 2, 7⟩] : List HRow).map HRow.z ∧
      ∀ r ∈ ([⟨1, 1, 5⟩, ⟨2, 2, 7⟩] : List HRow),
        (plotlyFeatureHeatmapMarker [⟨1, 1, 5⟩, ⟨2, 2, 7⟩]).cmin ≤ r.z ∧
        r.z ≤ (plotlyFeatureHeatmapMarker [⟨1, 1, 5⟩, ⟨2, 2, 7⟩]).cmax) ∧
    ((plotBokeh ⟨.off, 2, 2, false⟩ [⟨1, 1, 3⟩]).mapperLow ∈
        (prepare_data ⟨.off, 2, 2, false⟩ [⟨1, 1, 3⟩]).map Row.inty ∧
      (plotBokeh ⟨.off, 2, 2, false⟩ [⟨1, 1, 3⟩]).mapperHigh ∈
        (prepare_data ⟨.off, 2, 2, false⟩ [⟨1, 1, 3⟩]).map Row.inty ∧
      ∀ r ∈ prepare_data ⟨.off, 2, 2, false⟩ [⟨1, 1, 3⟩],
        (plotBokeh ⟨.off, 2, 2, false⟩ [⟨1, 1, 3⟩]).mapperLow ≤ r.inty ∧
        r.inty ≤ (plotBokeh ⟨.off, 2, 2, false⟩ [⟨1, 1, 3⟩]).mapperHigh) :=
  c8_color_domain_spans_dataset [⟨1, 1, 5⟩, ⟨2, 2, 7⟩] ⟨.off, 2, 2, false⟩
    [⟨1, 1, 3⟩] (by decide) (by decide)

/-- C9.  When the plotly library is unavailable the load fails immediately
with an `ImportError` whose message names the missing backend ("plotly"),
says it is not installed and asks for it to be installed; no figure value
is produced (the result is the error, not `ok`), and when the library is
available the check passes.  There is no retry: `load_extension` attempts
the import exactly once. -/
theorem c9_missing_backend_fails_fast :
    load_extension false = Except.error plotly_import_error_message ∧
    List.IsInfix ("plotly".toList) (plotly_import_error_message.toList) ∧
    List.IsInfix ("not installed".toList) (plotly_import_error_message.toList) ∧
    List.IsInfix ("Please install".toList) (plotly_import_error_message.toList) ∧
    load_extension true = Except.ok () := by
  exact ⟨rfl, by decide, by decide, by decide, rfl⟩

/-! Claims about the store-level model: the caller's frame is never written. -/

theorem getF_setF_ne (s : Store) (i j : ℕ) (f : List PRow) (h : j ≠ i) :
    getF (setF s i f) j = getF s j := by
  simp [getF, setF, List.getD, List.getElem?_set_ne (Ne.symm h)]

theorem getF_allocF (s : Store) (f : List PRow) (j : ℕ) (h : j < s.length) :
    getF (allocF s f).1 j = getF s j := by
  simp [getF, allocF, List.getD, List.getElem?_append_left h]

theorem setF_length (s : Store) (i : ℕ) (f : List PRow) :
    (setF s i f).length = s.length := by
  simp [setF]

theorem prepareTail_preserves (cfg : MSConfig) (s : Store) (rr j : ℕ)
    (hj : j < s.length) (hne : j ≠ rr) :
    getF (prepareTail cfg s rr).1 j = getF s j := by
  unfold prepareTail
  set s1 := if cfg.relative_intensity then setF s rr (normFrameP (getF s rr)) else s
    with hs1
  have h1 : getF s1 j = getF s j := by
    rw [hs1]; cases cfg.relative_intensity
    · simp
    · simp [getF_setF_ne s rr j _ hne]
  have hlen1 : s1.length = s.length := by
    rw [hs1]; cases cfg.relative_intensity <;> simp [setF_length]
  have h2 : getF (setF s1 rr (hoverFrameP (getF s1 rr))) j = getF s1 j :=
    getF_setF_ne s1 rr j _ hne
  have hlen2 : (setF s1 rr (hoverFrameP (getF s1 rr))).length = s.length := by
    rw [setF_length, hlen1]
  rw [getF_allocF _ _ j (by rw [hlen2]; exact hj), h2, h1]

theorem prepare_data_store_preserves (cfg : MSConfig) (s : Store) (rr j : ℕ)
    (hj : j < s.length) (hne : j ≠ rr) :
    getF (prepare_data_store cfg s rr).1 j = getF s j := by
  unfold prepare_data_store
  by_cases hb : binningCond cfg (fromP (getF s rr)).length = true
  · simp only [hb, if_true]
    set e := fromP (getF s rr)
    set s1 := setF s rr (cutFrame cfg e) with hs1
    have hlen1 : s1.length = s.length := setF_length _ _ _
    have h1 : getF s1 j = getF s j := getF_setF_ne _ _ _ _ hne
    set a2 := allocF s1 (groupFrame cfg e) with ha2
    have h2 : getF a2.1 j = getF s1 j := getF_allocF _ _ j (by rw [hlen1]; exact hj)
    have hlen2 : a2.1.length = s.length + 1 := by
      rw [ha2]; simp [allocF, hlen1]
    have ha22 : a2.2 = s.length := by rw [ha2]; simp [allocF, hlen1]
    set s3 := setF a2.1 a2.2 (midFrame cfg e) with hs3
    have h3 : getF s3 j = getF a2.1 j :=
      getF_setF_ne _ _ _ _ (by rw [ha22]; exact Nat.ne_of_lt hj)
    have hlen3 : s3.length = s.length + 1 := by rw [hs3, setF_length, hlen2]
    set a4 := allocF s3 (fillFrame cfg e) with ha4
    have h4 : getF a4.1 j = getF s3 j :=
      getF_allocF _ _ j (by rw [hlen3]; exact Nat.lt_succ_of_lt hj)
    have hlen4 : a4.1.length = s.length + 2 := by
      rw [ha4]; simp [allocF, hlen3]
    have ha42 : a4.2 = s.length + 1 := by rw [ha4]; simp [allocF, hlen3]
    rw [prepareTail_preserves cfg a4.1 a4.2 j
      (by rw [hlen4]; omega) (by rw [ha42]; omega), h4, h3, h2, h1]
  · simp only [hb, if_false, Bool.false_eq_true]
    exact prepareTail_preserves cfg s rr j hj hne

/-- C10.  `plotMSExperiment` passes `exp.copy()` to the plotter, so every
in-place column write of `_prepare_data` (the `pd.cut` columns, the
relative-intensity rescale, the hover-text synthesis) lands on the copy or
on frames freshly allocated during preparation; the caller's frame is the
same after the call as before. -/
theorem c10_caller_frame_unchanged (cfg : MSConfig) (engine : Engine) (s : Store)
    (r : ℕ) (h : r < s.length) :
    getF (plotMSExperiment_store cfg engine s r).1 r = getF s r := by
  unfold plotMSExperiment_store
  have hps : ∀ s' rr, getF (plot_store cfg engine s' rr).1 r = getF s' r →
      True := fun _ _ _ => trivial
  have hcopy : (allocF s (getF s r)).2 = s.length := rfl
  have hlen : (allocF s (getF s r)).1.length = s.length + 1 := by simp [allocF]
  have hpres : getF (plot_store cfg engine (allocF s (getF s r)).1
      (allocF s (getF s r)).2).1 r = getF (allocF s (getF s r)).1 r := by
    cases engine <;>
      exact prepare_data_store_preserves cfg _ _ r (by rw [hlen]; omega)
        (by rw [hcopy]; omega)
  rw [hpres, getF_allocF _ _ r h]

/-- Witness for C10 at a one-frame store holding a single observation. -/
theorem c10_caller_frame_unchanged_witness :
    getF (plotMSExperiment_store ⟨.auto, 2, 2, false⟩ .PLOTLY
        [[Row.toP ⟨100, 1, 10⟩]] 0).1 0 =
      getF [[Row.toP ⟨100, 1, 10⟩]] 0 :=
  c10_caller_frame_unchanged ⟨.auto, 2, 2, false⟩ .PLOTLY
    [[Row.toP ⟨100, 1, 10⟩]] 0 (by decide)

end MSPlot
